import Mathlib

/-!
Verification of the gsr service-registry library (jaypipes/gsr) against its
natural-language specification.

The embedding models Go strings as `List Char` (Go strings are byte slices;
every string these claims touch is plain ASCII).  Pure Go functions become
Lean functions; the etcd store and the registry handle state become explicit
records threaded through the operations.  I/O outcomes that the code branches
on (transport errors of a range read, for instance) are passed as explicit
boolean/inductive parameters, so every run of an operation is a deterministic
function of its inputs.
-/

namespace Gsr

/-- Go strings modelled as character lists. -/
abbrev GoStr := List Char

/-- Shorthand turning a Lean string literal into the Go-string model. -/
def gs (s : String) : GoStr := s.toList

/-- Model of Go `strings.Split(s, sep)` for a one-character separator:
splits on every occurrence of the separator; `Split("", sep) = [""]`. -/
def splitOnChar (sep : Char) : GoStr → List GoStr
  | [] => [[]]
  | c :: rest =>
    if c = sep then
      [] :: splitOnChar sep rest
    else
      match splitOnChar sep rest with
      | [] => [[c]]
      | h :: t => (c :: h) :: t

/-- Model of Go `strings.HasPrefix` (and of the key selection an etcd
prefix range read performs): `goHasPfx p s` is true iff `p` is an initial
segment of `s`. -/
def goHasPfx : GoStr → GoStr → Bool
  | [], _ => true
  | _ :: _, [] => false
  | p :: ps, c :: cs => p = c && goHasPfx ps cs

/-- Model of Go `strings.Count(s, sub)` for a one-character `sub`: the
number of occurrences of the character. -/
def countChar (c : Char) (s : GoStr) : Nat :=
  (s.filter (fun x => x = c)).length

/-- Model of Go `strings.TrimRight(s, "/")`: drop trailing slashes. -/
def trimRightSlash (s : GoStr) : GoStr :=
  (List.dropWhile (fun c => c = '/') s.reverse).reverse

/-! ## Key layout (registry.go / part_005: servicesKey, serviceKey,
endpointKey, partsFromKey).  The key prefix comes from the handle's
configuration; the functions are parameterised by it. -/

/-- Go `servicesKey`: `prefix + "services/"`. -/
def servicesKey (pfx : GoStr) : GoStr := pfx ++ gs "services/"

/-- Go `serviceKey`: `servicesKey() + service` (note: no trailing slash). -/
def serviceKey (pfx service : GoStr) : GoStr := servicesKey pfx ++ service

/-- Go `endpointKey`: `serviceKey(service) + "/" + endpoint`. -/
def endpointKey (pfx service endpoint : GoStr) : GoStr :=
  serviceKey pfx service ++ '/' :: endpoint

/-- Go `partsFromKey`: drops `len(servicesKey())` characters and splits the
remainder on `/`, returning `(parts[0], parts[1])`.  Go panics when fewer
than two parts exist; the model returns `[]` for a missing part (never
exercised on keys of the services subtree, which always carry both
segments). -/
def partsFromKey (pfx key : GoStr) : GoStr × GoStr :=
  let parts := splitOnChar '/' (key.drop (servicesKey pfx).length)
  (parts.headD [], (parts.drop 1).headD [])

/-! ## Facts about splitting -/

theorem splitOnChar_ne_nil (sep : Char) (l : GoStr) : splitOnChar sep l ≠ [] := by
  cases l with
  | nil => simp [splitOnChar]
  | cons c rest =>
    simp only [splitOnChar]
    split
    · simp
    · split <;> simp

theorem splitOnChar_of_not_mem (sep : Char) (l : GoStr) (h : sep ∉ l) :
    splitOnChar sep l = [l] := by
  induction l with
  | nil => rfl
  | cons c rest ih =>
    have hc : c ≠ sep := fun hcs => h (hcs ▸ List.mem_cons_self c rest)
    have hrest : sep ∉ rest := fun hm => h (List.mem_cons_of_mem _ hm)
    simp [splitOnChar, hc, ih hrest]

theorem splitOnChar_append (sep : Char) (s a : GoStr) (hs : sep ∉ s) :
    splitOnChar sep (s ++ sep :: a) = s :: splitOnChar sep a := by
  induction s with
  | nil =>
    cases h : splitOnChar sep a with
    | nil => exact absurd h (splitOnChar_ne_nil sep a)
    | cons x xs => simp [splitOnChar, h]
  | cons c s' ih =>
    have hc : c ≠ sep := fun hcs => hs (hcs ▸ List.mem_cons_self c s')
    have hs' : sep ∉ s' := fun hm => hs (List.mem_cons_of_mem _ hm)
    simp [splitOnChar, hc, ih hs']

theorem goHasPfx_append (p x : GoStr) : goHasPfx p (p ++ x) = true := by
  induction p with
  | nil => rfl
  | cons c ps ih => simp [goHasPfx, ih]

/-! ## Claim C3: key-layout round trip -/

/-- Claim C3: for all `/`-free non-empty strings `s` and `a`, parsing the
constructed endpoint key returns the original pair:
`partsFromKey (endpointKey s a) = (s, a)`. -/
theorem c3_parts_from_key_round_trip (pfx s a : GoStr)
    (hs : s ≠ []) (ha : a ≠ []) (hs' : '/' ∉ s) (ha' : '/' ∉ a) :
    partsFromKey pfx (endpointKey pfx s a) = (s, a) := by
  have hkey : endpointKey pfx s a = servicesKey pfx ++ (s ++ '/' :: a) := by
    simp [endpointKey, serviceKey, List.append_assoc]
  rw [partsFromKey, hkey]
  rw [List.drop_left]
  rw [splitOnChar_append '/' s a hs', splitOnChar_of_not_mem '/' a ha']
  rfl

/-- Witness for C3 at the spec's own example values. -/
theorem c3_parts_from_key_round_trip_witness :
    partsFromKey (gs "gsr/") (endpointKey (gs "gsr/") (gs "web") (gs "127.0.0.1:80"))
      = (gs "web", gs "127.0.0.1:80") :=
  c3_parts_from_key_round_trip (gs "gsr/") (gs "web") (gs "127.0.0.1:80")
    (by decide) (by decide) (by decide) (by decide)

/-! ## Store and endpoint model (part_005: Service, Endpoint, Registry) -/

/-- One key/value entry of the etcd store.  gsr writes the empty string as
every value, so only the key and the lease the key is bound to matter. -/
structure KVEntry where
  key : GoStr
  lease : Nat
deriving DecidableEq

/-- An endpoint descriptor (`Endpoint` with its `Service`): the service
name, the address, and the (private) lease id, zero until `Register`
grants one. -/
structure Endpoint where
  serviceName : GoStr
  address : GoStr
  lease : Nat
deriving DecidableEq

/-- An etcd prefix range read over the store: the entries whose key has
the given prefix.  etcd returns them sorted ascending by key; the model
keeps the store list itself in that order, and no claim below depends on
the order. -/
def rangeKeys (store : List KVEntry) (k : GoStr) : List KVEntry :=
  store.filter (fun kv => goHasPfx k kv.key)

/-- The per-key parse `Endpoints` performs: drop `len(skey)` characters,
split the remainder on `/`, and build a descriptor from `parts[0]` and
`parts[1]` (lease is left at its zero value). -/
def parseEndpoint (skeyLen : Nat) (key : GoStr) : Endpoint :=
  let parts := splitOnChar '/' (key.drop skeyLen)
  { serviceName := parts.headD [], address := (parts.drop 1).headD [], lease := 0 }

/-- The list built by `Registry.Endpoints` from a successful range read:
one descriptor per returned key, parsed against `len(serviceKey service)`. -/
def endpointsList (pfx service : GoStr) (store : List KVEntry) : List Endpoint :=
  let skey := serviceKey pfx service
  (rangeKeys store skey).map (fun kv => parseEndpoint skey.length kv.key)

/-- What `Registry.Endpoints` returns: the slice and whether the failure
branch logged.  `eps = none` models a Go nil slice (the code never
produces it; the error branch returns the non-nil empty slice). -/
structure EndpointsResult where
  eps : Option (List Endpoint)
  loggedError : Bool
deriving DecidableEq

/-- Go `Registry.Endpoints(service)` (part_005 lines 450-480): performs a
prefix range read under `serviceKey(service)`; on transport error
(`readFails`) logs and returns the empty (non-nil) slice; otherwise maps
each returned key to a parsed descriptor. -/
def EndpointsCall (pfx service : GoStr) (store : List KVEntry)
    (readFails : Bool) : EndpointsResult :=
  if readFails then
    { eps := some [], loggedError := true }
  else
    { eps := some (endpointsList pfx service store), loggedError := false }

/-! ## Claim C5: Endpoints swallows transport errors -/

/-- Claim C5: if the range read inside `Endpoints` fails with a transport
error, the call returns an empty list — not an error and not a nil
slice — and logs the failure; nothing is propagated to the caller. -/
theorem c5_endpoints_error_empty_list (pfx service : GoStr) (store : List KVEntry) :
    EndpointsCall pfx service store true
        = { eps := some [], loggedError := true }
      ∧ (EndpointsCall pfx service store true).eps ≠ none := by
  constructor
  · rfl
  · simp [EndpointsCall]

/-! ## Claim C7: Endpoints("") is the union across all services -/

/-- Claim C7: `Endpoints("")` performs its range read under
`servicesKey()` — the whole services subtree, hence the union across all
services — and returns one descriptor per key found, each carrying the
service name and address that `partsFromKey` parses out of the key. -/
theorem c7_endpoints_empty_service_union (pfx : GoStr) (store : List KVEntry) :
    (EndpointsCall pfx [] store false).eps
      = some ((rangeKeys store (servicesKey pfx)).map (fun kv =>
          { serviceName := (partsFromKey pfx kv.key).1
            address := (partsFromKey pfx kv.key).2
            lease := 0 })) := by
  have hkey : serviceKey pfx [] = servicesKey pfx := by
    simp [serviceKey]
  simp only [EndpointsCall, endpointsList, hkey, if_neg Bool.false_ne_true]
  simp [parseEndpoint, partsFromKey]

/-! ## Claim C10: service selection is a bare prefix match -/

/-- Claim C10: `Endpoints(s)` selects keys by prefix match on
`serviceKey(s)`, which has no trailing separator, so a key of the distinct
service `s ++ t` also matches; the returned entry for such a key carries
`Service.Name = t` — the key remainder after `serviceKey(s)` — rather than
the actual service name `s ++ t`. -/
theorem c10_endpoints_prefix_match_leak (pfx s t a : GoStr) (store : List KVEntry)
    (kv : KVEntry) (hmem : kv ∈ store)
    (hkey : kv.key = endpointKey pfx (s ++ t) a)
    (hs : s ≠ []) (ht : t ≠ []) (ht' : '/' ∉ t) (ha' : '/' ∉ a) :
    ∃ ep ∈ (EndpointsCall pfx s store false).eps.getD [],
      ep.serviceName = t ∧ ep.address = a ∧ ep.serviceName ≠ s ++ t := by
  have hsplit : kv.key = serviceKey pfx s ++ (t ++ '/' :: a) := by
    simp [hkey, endpointKey, serviceKey, servicesKey, List.append_assoc]
  refine ⟨parseEndpoint (serviceKey pfx s).length kv.key, ?_, ?_, ?_, ?_⟩
  · simp only [EndpointsCall, if_neg Bool.false_ne_true, Option.getD_some,
      endpointsList]
    exact List.mem_map_of_mem _ (List.mem_filter.mpr
      ⟨hmem, by rw [hsplit]; exact goHasPfx_append _ _⟩)
  · rw [hsplit]
    simp [parseEndpoint, List.drop_left, splitOnChar_append '/' t a ht']
  · rw [hsplit]
    simp [parseEndpoint, List.drop_left, splitOnChar_append '/' t a ht',
      splitOnChar_of_not_mem '/' a ha']
  · rw [hsplit]
    simp only [parseEndpoint, List.drop_left, splitOnChar_append '/' t a ht']
    intro hcontra
    have : t = s ++ t := by simpa using hcontra
    have : s = [] := by
      have hlen := congrArg List.length this
      simp at hlen
      exact hlen
    exact hs this

/-- Witness for C10: with prefix `gsr/`, a store holding only the key of
service `webfoo`, `Endpoints("web")` returns an entry with name `foo`. -/
theorem c10_endpoints_prefix_match_leak_witness :
    ∃ ep ∈ (EndpointsCall (gs "gsr/") (gs "web")
        [⟨endpointKey (gs "gsr/") (gs "webfoo") (gs "10.0.0.7:80"), 4⟩]
        false).eps.getD [],
      ep.serviceName = gs "foo" ∧ ep.address = gs "10.0.0.7:80"
        ∧ ep.serviceName ≠ gs "web" ++ gs "foo" :=
  c10_endpoints_prefix_match_leak (gs "gsr/") (gs "web") (gs "foo")
    (gs "10.0.0.7:80")
    [⟨endpointKey (gs "gsr/") (gs "webfoo") (gs "10.0.0.7:80"), 4⟩]
    ⟨endpointKey (gs "gsr/") (gs "webfoo") (gs "10.0.0.7:80"), 4⟩
    (List.mem_singleton.mpr rfl) (by decide) (by decide) (by decide)
    (by decide) (by decide)

/-! ## Register (part_005 lines 504-555) and the handle state.

The heartbeat map of the Go handle is keyed by the `*Endpoint` pointer;
the model keys it by a descriptor identity `epId : Nat`.  `nextLease` is
the id the store's lease allocator grants next (etcd lease ids are opaque;
the model allocates them sequentially).  Error-return paths of `Register`
(lease-grant failure, transaction transport failure, keepalive-open
failure) all return before the heartbeat map is touched and are not taken
in any run the claims below examine; the model covers the runs where the
store answers the grant, the transaction and the keepalive open. -/

/-- Go `contains` (util.go lines 7-14): does the endpoint slice hold an entry
with the searched address? -/
def contains (search : GoStr) (l : List Endpoint) : Bool :=
  l.any (fun ep => ep.address = search)

/-- Heartbeat-map lookup (Go map indexing). -/
def hbGet (m : List (Nat × Nat)) (k : Nat) : Option Nat :=
  (m.find? (fun p => p.1 = k)).map (fun p => p.2)

/-- Heartbeat-map update (Go map assignment: overwrite or add). -/
def hbSet : List (Nat × Nat) → Nat → Nat → List (Nat × Nat)
  | [], k, v => [(k, v)]
  | p :: rest, k, v => if p.1 = k then (k, v) :: rest else p :: hbSet rest k v

theorem hbGet_hbSet (m : List (Nat × Nat)) (k v : Nat) :
    hbGet (hbSet m k v) k = some v := by
  induction m with
  | nil => simp [hbGet, hbSet]
  | cons p rest ih =>
    by_cases h : p.1 = k
    · simp [hbGet, hbSet, h, List.find?]
    · simpa [hbGet, hbSet, h, List.find?] using ih

/-- Heartbeat-map deletion (Go `delete`). -/
def hbRemove (m : List (Nat × Nat)) (k : Nat) : List (Nat × Nat) :=
  m.filter (fun p => p.1 ≠ k)

/-- The observable state a registry handle and its store share: the store
entries, the store's lease allocator, and the handle's heartbeat map
(descriptor id per heartbeated lease id). -/
structure HandleState where
  store : List KVEntry
  nextLease : Nat
  heartbeats : List (Nat × Nat)
deriving DecidableEq

/-- The transcript of one `Register` call: the returned error status, the
lease the call granted, whether `createEndpoint` ran its transaction and
whether that compare-and-swap committed (`resp.Succeeded`), the descriptor
after the call (its lease field is mutated), and the resulting state. -/
structure RegisterOutcome where
  ok : Bool
  grantedLease : Nat
  casExecuted : Bool
  casCommitted : Bool
  ep : Endpoint
  state : HandleState
deriving DecidableEq

/-- Go `Registry.Register` (part_005 lines 506-530) with `createEndpoint`
(lines 533-555) inlined: grant a fresh lease and store it on the
descriptor; read `Endpoints(service)` (whose range read fails with a
transport error iff `epsReadFails`, in which case it yields the empty
slice); if the address is not among the parsed endpoints, run the
transaction `if version(endpointKey) == 0 then put(key, lease)` — a failed
compare is only logged (`resp.Succeeded == false`) and `createEndpoint`
still returns nil; finally open the keepalive on the granted lease and
stash it in the heartbeat map. -/
def Register (pfx : GoStr) (epId : Nat) (ep : Endpoint) (epsReadFails : Bool)
    (s : HandleState) : RegisterOutcome :=
  let lease := s.nextLease
  let s1 : HandleState := { s with nextLease := s.nextLease + 1 }
  let ep1 : Endpoint := { ep with lease := lease }
  let eps := (EndpointsCall pfx ep.serviceName s1.store epsReadFails).eps.getD []
  if contains ep1.address eps then
    { ok := true, grantedLease := lease, casExecuted := false
      casCommitted := false, ep := ep1
      state := { s1 with heartbeats := hbSet s1.heartbeats epId lease } }
  else
    let ekey := endpointKey pfx ep1.serviceName ep1.address
    let keyExists := s1.store.any (fun kv => kv.key = ekey)
    let store2 := if keyExists then s1.store else s1.store ++ [⟨ekey, lease⟩]
    { ok := true, grantedLease := lease, casExecuted := true
      casCommitted := !keyExists, ep := ep1
      state := { store := store2, nextLease := s1.nextLease
                 heartbeats := hbSet s1.heartbeats epId lease } }

/-! ## Claim C1: the code heartbeats a lease whose put did not commit.

Failing input: the store already holds the endpoint key (bound to another
writer's lease 1) and the `Endpoints` read inside `Register` fails with a
transport error, so `contains` sees the empty slice and `createEndpoint`
runs; its compare `version(key) == 0` fails (`casCommitted = false`), yet
`Register` goes on to open the keepalive on the freshly granted lease 2. -/

/-- The endpoint key of C1's failing input. -/
def c1Key : GoStr := endpointKey (gs "gsr/") (gs "web") (gs "10.0.0.1:80")

/-- C1's failing input: the store already binds the endpoint key to
another writer's lease 1; the next lease the store grants is 2. -/
def c1Init : HandleState :=
  { store := [⟨c1Key, 1⟩], nextLease := 2, heartbeats := [] }

/-- The run of `Register` on C1's failing input, with the `Endpoints`
range read inside it failing with a transport error. -/
def c1Run : RegisterOutcome :=
  Register (gs "gsr/") 0
    { serviceName := gs "web", address := gs "10.0.0.1:80", lease := 0 } true c1Init

/-- Claim C1 (contradicted by the code): on the failing input the
compare-and-swap does not commit, `Register` still returns success, and
the heartbeat map now maps the descriptor to the granted lease — the key
itself stays bound to the other writer's lease 1.  The spec requires that
such a lease is never heartbeated. -/
theorem c1_heartbeat_despite_failed_cas :
    c1Run.casExecuted = true ∧ c1Run.casCommitted = false ∧ c1Run.ok = true
      ∧ hbGet c1Run.state.heartbeats 0 = some c1Run.grantedLease
      ∧ c1Run.grantedLease = 2
      ∧ c1Run.state.store = [⟨c1Key, 1⟩] := by
  decide

/-! ## Claim C2: Register twice versus Register once.

The second call grants a fresh lease, skips the transaction (the address
is now visible in the store) and rebinds the descriptor and its heartbeat
entry to the new lease, so the two registrations do not share one lease;
the store itself is unchanged and holds exactly one endpoint key. -/

/-- Claim C2 counterexample: at a concrete input, two `Register` calls do
not produce the same observable state as one — the heartbeat map and the
descriptor's lease differ — refuting the claim as stated. -/
theorem c2_register_twice_counterexample :
    let ep0 : Endpoint := { serviceName := gs "web", address := gs "10.0.0.1:80", lease := 0 }
    let s0 : HandleState := { store := [], nextLease := 1, heartbeats := [] }
    let r1 := Register (gs "gsr/") 0 ep0 false s0
    let r2 := Register (gs "gsr/") 0 r1.ep false r1.state
    r2.state ≠ r1.state
      ∧ r2.ep.lease ≠ r1.ep.lease
      ∧ hbGet r2.state.heartbeats 0 ≠ hbGet r1.state.heartbeats 0
      ∧ r2.state.store = r1.state.store := by
  decide

theorem contains_of_key_mem (pfx service addr : GoStr) (store : List KVEntry)
    (kv : KVEntry) (hmem : kv ∈ store)
    (hkey : kv.key = endpointKey pfx service addr) (ha : '/' ∉ addr) :
    contains addr (endpointsList pfx service store) = true := by
  have hsplit : kv.key = serviceKey pfx service ++ '/' :: addr := hkey
  apply List.any_eq_true.mpr
  refine ⟨parseEndpoint (serviceKey pfx service).length kv.key, ?_, ?_⟩
  · exact List.mem_map_of_mem _ (List.mem_filter.mpr
      ⟨hmem, by rw [hsplit]; exact goHasPfx_append _ _⟩)
  · rw [hsplit]
    simp [parseEndpoint, List.drop_left, splitOnChar_of_not_mem '/' addr ha,
      splitOnChar]

theorem key_not_mem_of_not_contains (pfx service addr : GoStr)
    (store : List KVEntry)
    (hc : contains addr (endpointsList pfx service store) = false)
    (ha : '/' ∉ addr) (kv : KVEntry) (hmem : kv ∈ store) :
    kv.key ≠ endpointKey pfx service addr := by
  intro hkey
  have := contains_of_key_mem pfx service addr store kv hmem hkey ha
  rw [hc] at this
  exact Bool.false_ne_true this

/-- Claim C2 amended: starting from any state whose store shows no
endpoint of the service at this address, calling `Register(e)` twice
leaves the store exactly as one call does — the single new endpoint key,
present exactly once and bound to the first granted lease — but not the
same handle state: the second call grants a fresh lease, runs no
transaction, and rebinds the descriptor and its heartbeat-map entry to the
new lease, so the two registrations do not share one lease. -/
theorem c2_register_twice_amended (pfx service addr : GoStr) (epId : Nat)
    (s : HandleState) (ha : '/' ∉ addr)
    (hc : contains addr (endpointsList pfx service s.store) = false) :
    let ep0 : Endpoint := { serviceName := service, address := addr, lease := 0 }
    let r1 := Register pfx epId ep0 false s
    let r2 := Register pfx epId r1.ep false r1.state
    let ekey := endpointKey pfx service addr
    r1.casExecuted = true ∧ r1.casCommitted = true
      ∧ r1.state.store = s.store ++ [⟨ekey, r1.grantedLease⟩]
      ∧ r2.state.store = r1.state.store
      ∧ (r2.state.store.filter (fun kv => kv.key = ekey)).length = 1
      ∧ r2.casExecuted = false
      ∧ r2.grantedLease = r1.grantedLease + 1
      ∧ r2.ep.lease ≠ r1.ep.lease
      ∧ hbGet r2.state.heartbeats epId = some r2.grantedLease := by
  intro ep0 r1 r2 ekey
  have hnokey : s.store.any (fun kv => kv.key = ekey) = false := by
    apply Bool.eq_false_iff.mpr
    intro hany
    obtain ⟨kv, hmem, hk⟩ := List.any_eq_true.mp hany
    exact key_not_mem_of_not_contains pfx service addr s.store hc ha kv hmem
      (by simpa using hk)
  have hr1 : r1 = { ok := true
                    grantedLease := s.nextLease
                    casExecuted := true
                    casCommitted := true
                    ep := { ep0 with lease := s.nextLease }
                    state := { store := s.store ++ [⟨ekey, s.nextLease⟩]
                               nextLease := s.nextLease + 1
                               heartbeats := hbSet s.heartbeats epId s.nextLease } } := by
    show Register pfx epId ep0 false s = _
    rw [Register]
    simp only [EndpointsCall, if_neg Bool.false_ne_true, Option.getD_some]
    rw [if_neg (by simp [hc]), hnokey]
    rfl
  have hcontains2 : contains addr
      (endpointsList pfx service (s.store ++ [⟨ekey, s.nextLease⟩])) = true := by
    exact contains_of_key_mem pfx service addr _ ⟨ekey, s.nextLease⟩
      (List.mem_append_right _ (List.mem_singleton.mpr rfl)) rfl ha
  have hr2 : r2 = { ok := true
                    grantedLease := s.nextLease + 1
                    casExecuted := false
                    casCommitted := false
                    ep := { ep0 with lease := s.nextLease + 1 }
                    state := { store := s.store ++ [⟨ekey, s.nextLease⟩]
                               nextLease := s.nextLease + 2
                               heartbeats := hbSet (hbSet s.heartbeats epId s.nextLease)
                                 epId (s.nextLease + 1) } } := by
    show Register pfx epId r1.ep false r1.state = _
    rw [hr1, Register]
    simp only [EndpointsCall, if_neg Bool.false_ne_true, Option.getD_some]
    rw [if_pos (by simpa using hcontains2)]
  have hcount : ((s.store ++ [({ key := ekey, lease := s.nextLease } : KVEntry)]).filter
      (fun kv => kv.key = ekey)).length = 1 := by
    rw [List.filter_append]
    have hnone : s.store.filter (fun kv => kv.key = ekey) = [] := by
      apply List.filter_eq_nil_iff.mpr
      intro kv hmem
      simpa using key_not_mem_of_not_contains pfx service addr s.store hc ha
        kv hmem
    rw [hnone]
    simp
  refine ⟨by rw [hr1], by rw [hr1], by rw [hr1], by rw [hr1, hr2], ?_, by rw [hr2],
    by rw [hr1, hr2], by rw [hr1, hr2]; simp, ?_⟩
  · rw [hr2]
    exact hcount
  · rw [hr2]
    exact hbGet_hbSet _ _ _

/-- Witness for C2's amended theorem at a concrete input: an empty store,
service `web`, address `a`; the second registration's lease differs from
the first's. -/
theorem c2_register_twice_amended_witness :
    ('/' ∉ gs "a")
      ∧ contains (gs "a") (endpointsList (gs "gsr/") (gs "web") ([] : List KVEntry)) = false
      ∧ (Register (gs "gsr/") 0
            (Register (gs "gsr/") 0 ⟨gs "web", gs "a", 0⟩ false ⟨[], 1, []⟩).ep false
            (Register (gs "gsr/") 0 ⟨gs "web", gs "a", 0⟩ false ⟨[], 1, []⟩).state).ep.lease
          ≠ (Register (gs "gsr/") 0 ⟨gs "web", gs "a", 0⟩ false ⟨[], 1, []⟩).ep.lease :=
  ⟨by decide, by decide,
    (c2_register_twice_amended (gs "gsr/") (gs "web") (gs "a") 0 ⟨[], 1, []⟩
      (by decide) (by decide)).2.2.2.2.2.2.2.1⟩

/-! ## The KV client factory's retry loop (part_005 lines 577-672).

`fn` wraps `etcd.New`; on error it classifies the error's dynamic shape.
The model's `ConnErr` is that shape: the sentinel comparisons
(`grpc.ErrClientConnTimeout`, `context.Canceled`,
`context.DeadlineExceeded`) come first; then the type switch on
`*net.OpError` (with its `Temporary()`/`Timeout()` results, its `Op`
string and whether its `Addr` is nil), on `syscall.Errno` (equal to
`ECONNREFUSED` or not), and a `default` arm for every other dynamic
type. -/

inductive ConnErr where
  | grpcClientConnTimeout
  | ctxCanceled
  | ctxDeadlineExceeded
  | opError (op : GoStr) (temporary timeout addrIsNil : Bool)
  | errno (isConnRefused : Bool)
  | otherErr
deriving DecidableEq

/-- What one execution of `fn` does with a failed `etcd.New`: return the
error with `fatal` left false (the backoff loop retries), return the error
with `fatal` set (the loop breaks and `connect` propagates the error), or
— when a `*net.OpError` whose `Op` is neither `dial` nor `read` and which
is neither temporary nor a timeout, or a `syscall.Errno` other than
`ECONNREFUSED`, falls out of the type switch — reach the trailing
`return nil`, which the loop takes for success. -/
inductive FnOutcome where
  | retryErr
  | fatalErr
  | silentSuccess
deriving DecidableEq

/-- The error classification of `fn` (part_005 lines 591-646), arm by
arm in the code's order. -/
def classifyConnectError : ConnErr → FnOutcome
  | .grpcClientConnTimeout => .retryErr
  | .ctxCanceled => .retryErr
  | .ctxDeadlineExceeded => .retryErr
  | .opError op temporary timeout addrIsNil =>
    if temporary || timeout then .retryErr
    else if op = gs "dial" then
      if addrIsNil then .fatalErr else .retryErr
    else if op = gs "read" then .retryErr
    else .silentSuccess
  | .errno isConnRefused => if isConnRefused then .retryErr else .silentSuccess
  | .otherErr => .fatalErr

/-- The result of `connect`: a connected client with nil error, a nil
client with the propagated error, or — via the fall-through in `fn` — a
nil client together with a nil error. -/
inductive ConnectResult where
  | connected
  | failed (e : ConnErr)
  | nilClientNilError (e : ConnErr)
deriving DecidableEq

/-- The backoff ticker loop of `connect` (part_005 lines 648-671) over
the sequence of attempt outcomes the store produces, one per tick granted
by the exponential backoff before `MaxElapsedTime` (= the configured
connect timeout) elapses; `none` is a successful `etcd.New`.  `lastErr`
is the closed-over `err` variable, which holds the previous attempt's
error when the tick sequence runs out (budget exhausted). -/
def connectLoop (lastErr : Option ConnErr) : List (Option ConnErr) → ConnectResult
  | [] =>
    match lastErr with
    | some e => .failed e
    | none => .connected
  | attempt :: rest =>
    match attempt with
    | none => .connected
    | some e =>
      match classifyConnectError e with
      | .retryErr => connectLoop (some e) rest
      | .fatalErr => .failed e
      | .silentSuccess => .nilClientNilError e

/-- The classification claim C4 asserts, written from the spec's words:
temporary network errors, read or dial connection-refused (a dial error
whose destination address resolved), deadline-exceeded or cancellation,
and the generic client-connect timeout are retriable; an unknown-host
error (a dial error with no resolved address) and every unrecognized
error class abort and propagate. -/
def claimRetriable : ConnErr → Bool
  | .grpcClientConnTimeout => true
  | .ctxCanceled => true
  | .ctxDeadlineExceeded => true
  | .opError op temporary timeout addrIsNil =>
    if temporary || timeout then true
    else if op = gs "dial" then !addrIsNil
    else op = gs "read"
  | .errno isConnRefused => isConnRefused
  | .otherErr => false

/-- Claim C4 counterexample: a `*net.OpError` with `Op = "write"` that is
neither temporary nor a timeout is an unrecognized error class — the
claim says the loop aborts immediately and propagates it — but the code
falls out of the type switch, `fn` returns nil, and `connect` stops as if
it had succeeded, returning a nil client with no error. -/
theorem c4_connect_unrecognized_op_counterexample :
    let badE := ConnErr.opError (gs "write") false false false
    claimRetriable badE = false
      ∧ connectLoop none [some badE] ≠ ConnectResult.failed badE
      ∧ connectLoop none [some badE, none] = ConnectResult.nilClientNilError badE
      ∧ classifyConnectError badE = FnOutcome.silentSuccess := by
  decide

/-- Claim C4 amended (what `fn` and the loop actually do), written from
the amended words. -/
def amendedClassify : ConnErr → FnOutcome
  | .grpcClientConnTimeout => .retryErr
  | .ctxCanceled => .retryErr
  | .ctxDeadlineExceeded => .retryErr
  | .opError op temporary timeout addrIsNil =>
    if temporary || timeout then .retryErr
    else if op = gs "dial" then
      if addrIsNil then .fatalErr else .retryErr
    else if op = gs "read" then .retryErr
    else .silentSuccess
  | .errno isConnRefused => if isConnRefused then .retryErr else .silentSuccess
  | .otherErr => .fatalErr

/-- Claim C4 amended: temporary network errors, read or dial
connection-refused, deadline-exceeded or cancellation, and the generic
client-connect timeout keep the backoff loop retrying; a dial error with
no resolved address and an unrecognized non-network error class abort the
loop immediately and propagate the error; but a `*net.OpError` whose op
is recognized by none of the arms (neither temporary nor timeout, op
neither `dial` nor `read`) and a `syscall.Errno` other than
`ECONNREFUSED` fall out of the switch, making `fn` return nil: the loop
stops as on success and `connect` returns a nil client with no error. -/
theorem c4_connect_classification_amended (e : ConnErr) (lastErr : Option ConnErr)
    (rest : List (Option ConnErr)) :
    classifyConnectError e = amendedClassify e
      ∧ (amendedClassify e = FnOutcome.retryErr →
          connectLoop lastErr (some e :: rest) = connectLoop (some e) rest)
      ∧ (amendedClassify e = FnOutcome.fatalErr →
          connectLoop lastErr (some e :: rest) = ConnectResult.failed e)
      ∧ (amendedClassify e = FnOutcome.silentSuccess →
          connectLoop lastErr (some e :: rest) = ConnectResult.nilClientNilError e) := by
  have hce : classifyConnectError e = amendedClassify e := by
    cases e <;> rfl
  refine ⟨hce, ?_, ?_, ?_⟩ <;> intro h <;>
    simp [connectLoop, hce, h]

/-- Witness for C4's amended theorem at concrete errors: a cancellation
continues the loop; a non-network error aborts with the error; a
`write`-op error stops the loop with a nil client and no error. -/
theorem c4_connect_classification_amended_witness :
    connectLoop none [some ConnErr.ctxCanceled] = connectLoop (some ConnErr.ctxCanceled) []
      ∧ connectLoop none [some ConnErr.otherErr] = ConnectResult.failed ConnErr.otherErr
      ∧ connectLoop none [some (ConnErr.opError (gs "write") false false false)]
          = ConnectResult.nilClientNilError (ConnErr.opError (gs "write") false false false) :=
  ⟨(c4_connect_classification_amended ConnErr.ctxCanceled none []).2.1 (by decide),
   (c4_connect_classification_amended ConnErr.otherErr none []).2.2.1 (by decide),
   (c4_connect_classification_amended (ConnErr.opError (gs "write") false false false)
      none []).2.2.2 (by decide)⟩

/-! ## Unregister (spec §4.4; no implementation under the provided sources) -/

/-- Modelled from the spec: `Registry.Unregister` is called by the example
program (`examples/cmd/data/main.go`) but its implementation is not among
the provided source files.  Spec §4.4: revoke the lease associated with
the endpoint — the store removes the key(s) bound to that lease
atomically — close the keepalive stream and remove the descriptor from
the handle's heartbeat map; unregistering an endpoint unknown to this
handle is a no-op that returns success.  The call always returns success;
this function is the state it leaves behind. -/
def unregisterState (epId : Nat) (ep : Endpoint) (s : HandleState) : HandleState :=
  match hbGet s.heartbeats epId with
  | none => s
  | some _ =>
    { store := s.store.filter (fun kv => kv.lease ≠ ep.lease)
      nextLease := s.nextLease
      heartbeats := hbRemove s.heartbeats epId }

theorem hbGet_hbRemove (m : List (Nat × Nat)) (k : Nat) :
    hbGet (hbRemove m k) k = none := by
  induction m with
  | nil => rfl
  | cons p rest ih =>
    by_cases h : p.1 = k
    · simpa [hbRemove, h] using ih
    · simpa [hbGet, hbRemove, h, List.find?] using ih

/-- Claim C6: `Unregister` is idempotent — applying it twice leaves the
state a single application leaves; on an endpoint unknown to the handle
(no heartbeat-map entry) it is a no-op; on a registered endpoint it
removes every store key bound to the endpoint's lease (in particular the
endpoint key, which the registration bound to that lease) and removes the
descriptor from the heartbeat map. -/
theorem c6_unregister_idempotent_and_effects (pfx : GoStr) (epId : Nat)
    (ep : Endpoint) (s : HandleState) :
    unregisterState epId ep (unregisterState epId ep s) = unregisterState epId ep s
      ∧ (hbGet s.heartbeats epId = none → unregisterState epId ep s = s)
      ∧ (∀ l, hbGet s.heartbeats epId = some l →
          (∀ kv ∈ (unregisterState epId ep s).store, kv.lease ≠ ep.lease)
            ∧ hbGet (unregisterState epId ep s).heartbeats epId = none
            ∧ ((∀ kv ∈ s.store,
                  kv.key = endpointKey pfx ep.serviceName ep.address →
                    kv.lease = ep.lease) →
                ∀ kv ∈ (unregisterState epId ep s).store,
                  kv.key ≠ endpointKey pfx ep.serviceName ep.address)) := by
  refine ⟨?_, ?_, ?_⟩
  · cases h : hbGet s.heartbeats epId with
    | none => simp [unregisterState, h]
    | some l =>
      simp [unregisterState, h, hbGet_hbRemove]
  · intro h
    simp [unregisterState, h]
  · intro l h
    refine ⟨?_, ?_, ?_⟩
    · intro kv hmem
      simp only [unregisterState, h] at hmem
      simpa using (List.mem_filter.mp hmem).2
    · simp only [unregisterState, h]
      exact hbGet_hbRemove _ _
    · intro hbind kv hmem hkey
      simp only [unregisterState, h] at hmem
      have hkv := List.mem_filter.mp hmem
      have := hbind kv hkv.1 hkey
      simp [this] at hkv

/-- Witness for C6: a handle heartbeating endpoint 0 on lease 7, whose
store holds the endpoint key bound to lease 7 and an unrelated key on
lease 3; unregistering drops the key and the heartbeat entry, and doing
it on a handle with an empty heartbeat map is a no-op. -/
theorem c6_unregister_idempotent_and_effects_witness :
    (unregisterState 0 ⟨gs "web", gs "10.0.0.1:80", 7⟩
        { store := [⟨endpointKey (gs "gsr/") (gs "web") (gs "10.0.0.1:80"), 7⟩,
                    ⟨endpointKey (gs "gsr/") (gs "db") (gs "10.0.0.2:90"), 3⟩]
          nextLease := 8
          heartbeats := [(0, 7)] }).heartbeats.length = 0
      ∧ unregisterState 0 ⟨gs "web", gs "10.0.0.1:80", 7⟩
          { store := [], nextLease := 1, heartbeats := [] }
        = { store := [], nextLease := 1, heartbeats := [] } := by
  constructor
  · decide
  · exact (c6_unregister_idempotent_and_effects (gs "gsr/") 0
      ⟨gs "web", gs "10.0.0.1:80", 7⟩
      { store := [], nextLease := 1, heartbeats := [] }).2.1 (by decide)

/-! ## Configuration resolver (conf.go, env.go).

The process environment is modelled as `os.Getenv`: a total function from
variable names to values, returning the empty string for an unset
variable.  `conf.go` reads through `envutil.WithDefault*`, whose contract
is the one `env.go`'s `EnvOrDefault*` functions implement in-tree: empty
means unset, malformed values fall back to the default. -/

/-- The process environment (`os.Getenv`). -/
abbrev Env := GoStr → GoStr

/-- Go `EnvOrDefaultStr` (env.go lines 10-16). -/
def envOrDefaultStr (env : Env) (key d : GoStr) : GoStr :=
  if env key = [] then d else env key

/-- Model of Go `strconv.Atoi` on the digits after an optional sign.
Values large enough to overflow a 64-bit int are an error in Go; no value
in scope approaches that. -/
def parseDigitsAux (acc : Nat) : GoStr → Option Nat
  | [] => some acc
  | c :: rest =>
    if c.isDigit then parseDigitsAux (acc * 10 + (c.toNat - 48)) rest else none

/-- Go `strconv.Atoi`: optional sign, then one or more digits; anything else
is an error (`none`). -/
def goAtoi : GoStr → Option Int
  | [] => none
  | '+' :: rest =>
    if rest = [] then none else (parseDigitsAux 0 rest).map Int.ofNat
  | '-' :: rest =>
    if rest = [] then none else (parseDigitsAux 0 rest).map (fun n => -(n : Int))
  | l => (parseDigitsAux 0 l).map Int.ofNat

/-- Go `strconv.ParseBool`: accepts exactly 1, t, T, TRUE, true, True and
0, f, F, FALSE, false, False. -/
def goParseBool (s : GoStr) : Option Bool :=
  if s = gs "1" ∨ s = gs "t" ∨ s = gs "T" ∨ s = gs "TRUE" ∨ s = gs "true"
      ∨ s = gs "True" then
    some true
  else if s = gs "0" ∨ s = gs "f" ∨ s = gs "F" ∨ s = gs "FALSE" ∨ s = gs "false"
      ∨ s = gs "False" then
    some false
  else none

/-- Go `EnvOrDefaultInt` (env.go lines 20-30): unset or unparsable means the
default. -/
def envOrDefaultInt (env : Env) (key : GoStr) (d : Int) : Int :=
  if env key = [] then d
  else
    match goAtoi (env key) with
    | some i => i
    | none => d

/-- Go `EnvOrDefaultBool` (env.go lines 34-44). -/
def envOrDefaultBool (env : Env) (key : GoStr) (d : Bool) : Bool :=
  if env key = [] then d
  else
    match goParseBool (env key) with
    | some b => b
    | none => d

/-- The per-entry normalization of `etcdEndpoints` (conf.go lines
200-208): prepend `http://` when the entry does not start with `http`;
append the store's default port `:2379` when the entry then has exactly
one colon. -/
def normalizeEndpoint (ep : GoStr) : GoStr :=
  let ep1 := if !goHasPfx (gs "http") ep then gs "http://" ++ ep else ep
  if countChar ':' ep1 = 1 then ep1 ++ gs ":2379" else ep1

/-- Go `etcdEndpoints` (conf.go lines 190-210): split the configured value
on commas and normalize each entry into its slot of the result, in
order. -/
def etcdEndpoints (env : Env) : List GoStr :=
  (splitOnChar ','
    (envOrDefaultStr env (gs "GSR_ETCD_ENDPOINTS") (gs "http://127.0.0.1:2379"))).map
    normalizeEndpoint

/-- Go `Config` (conf.go lines 35-48); durations are carried in seconds.
The Go field `EtcdKeyPrefix` is spelled `etcdKeyPfx` here. -/
structure Config where
  etcdEndpoints : List GoStr
  etcdKeyPfx : GoStr
  etcdConnectTimeoutSeconds : Int
  etcdRequestTimeoutSeconds : Int
  etcdDialTimeoutSeconds : Int
  useTLS : Bool
  tlsCertPath : GoStr
  tlsKeyPath : GoStr
  logLevel : Int
  logMicroseconds : Bool
  logFileTrace : Bool
  leaseSeconds : Int
deriving DecidableEq

/-- Go `configFromEnv` (conf.go lines 50-123). -/
def configFromEnv (env : Env) : Config :=
  { etcdEndpoints := etcdEndpoints env
    etcdKeyPfx :=
      trimRightSlash (envOrDefaultStr env (gs "GSR_KEY_PREFIX") (gs "gsr/")) ++ ['/']
    etcdConnectTimeoutSeconds :=
      envOrDefaultInt env (gs "GSR_ETCD_CONNECT_TIMEOUT_SECONDS") 300
    etcdRequestTimeoutSeconds :=
      envOrDefaultInt env (gs "GSR_ETCD_REQUEST_TIMEOUT_SECONDS") 1
    etcdDialTimeoutSeconds :=
      envOrDefaultInt env (gs "GSR_ETCD_DIAL_TIMEOUT_SECONDS") 1
    useTLS := envOrDefaultBool env (gs "GSR_USE_TLS") false
    tlsCertPath := envOrDefaultStr env (gs "GSR_TLS_CERT_PATH") (gs "/etc/gsr/server.pem")
    tlsKeyPath := envOrDefaultStr env (gs "GSR_TLS_KEY_PATH") (gs "/etc/gsr/server.key")
    logLevel := envOrDefaultInt env (gs "GSR_LOG_LEVEL") 0
    logMicroseconds := envOrDefaultBool env (gs "GSR_LOG_MICROSECONDS") false
    logFileTrace := envOrDefaultBool env (gs "GSR_LOG_FILE_TRACE") false
    leaseSeconds := envOrDefaultInt env (gs "GSR_LEASE_SECONDS") 60 }

/-- The documented defaults (spec §6, conf.go lines 16-33). -/
def defaultConfig : Config :=
  { etcdEndpoints := [gs "http://127.0.0.1:2379"]
    etcdKeyPfx := gs "gsr/"
    etcdConnectTimeoutSeconds := 300
    etcdRequestTimeoutSeconds := 1
    etcdDialTimeoutSeconds := 1
    useTLS := false
    tlsCertPath := gs "/etc/gsr/server.pem"
    tlsKeyPath := gs "/etc/gsr/server.key"
    logLevel := 0
    logMicroseconds := false
    logFileTrace := false
    leaseSeconds := 60 }

theorem countChar_append (c : Char) (a b : GoStr) :
    countChar c (a ++ b) = countChar c a + countChar c b := by
  simp [countChar, List.filter_append]

/-! ## Claim C8: endpoint-list normalization -/

/-- Claim C8: the resolved endpoint list holds exactly one normalized
entry per comma-separated input entry, in order; an entry without the
`http` scheme gets `http://` prepended; an entry left with exactly one
colon — no port beyond the scheme's — gets the store's default port
`:2379` appended, and an entry with scheme and port passes through
unchanged. -/
theorem c8_etcd_endpoints_normalization (env : Env) :
    etcdEndpoints env
        = (splitOnChar ','
            (envOrDefaultStr env (gs "GSR_ETCD_ENDPOINTS")
              (gs "http://127.0.0.1:2379"))).map normalizeEndpoint
      ∧ (etcdEndpoints env).length
          = (splitOnChar ','
              (envOrDefaultStr env (gs "GSR_ETCD_ENDPOINTS")
                (gs "http://127.0.0.1:2379"))).length
      ∧ (∀ e, goHasPfx (gs "http") e = false → countChar ':' e = 0 →
          normalizeEndpoint e = gs "http://" ++ e ++ gs ":2379")
      ∧ (∀ e, goHasPfx (gs "http") e = true → countChar ':' e = 1 →
          normalizeEndpoint e = e ++ gs ":2379")
      ∧ (∀ e, goHasPfx (gs "http") e = true → countChar ':' e ≠ 1 →
          normalizeEndpoint e = e) := by
  refine ⟨rfl, by simp [etcdEndpoints], ?_, ?_, ?_⟩
  · intro e h1 h2
    have hcnt : countChar ':' (gs "http://" ++ e) = 1 := by
      rw [countChar_append, h2]
      decide
    simp [normalizeEndpoint, h1, hcnt, List.append_assoc]
  · intro e h1 h2
    simp [normalizeEndpoint, h1, h2]
  · intro e h1 h2
    simp [normalizeEndpoint, h1, h2]

/-- Witness for C8 at concrete entries: a bare host gains scheme and
port, a host with port gains only the scheme, a full URL is untouched,
and a two-entry list maps entry by entry. -/
theorem c8_etcd_endpoints_normalization_witness :
    normalizeEndpoint (gs "127.0.0.1") = gs "http://" ++ gs "127.0.0.1" ++ gs ":2379"
      ∧ normalizeEndpoint (gs "http://etcd.example.org") = gs "http://etcd.example.org" ++ gs ":2379"
      ∧ normalizeEndpoint (gs "http://10.0.0.5:2380") = gs "http://10.0.0.5:2380"
      ∧ etcdEndpoints (fun k => if k = gs "GSR_ETCD_ENDPOINTS" then gs "a,b:80" else [])
          = (splitOnChar ',' (gs "a,b:80")).map normalizeEndpoint :=
  ⟨(c8_etcd_endpoints_normalization (fun _ => [])).2.2.1 (gs "127.0.0.1")
      (by decide) (by decide),
   (c8_etcd_endpoints_normalization (fun _ => [])).2.2.2.1 (gs "http://etcd.example.org")
      (by decide) (by decide),
   (c8_etcd_endpoints_normalization (fun _ => [])).2.2.2.2 (gs "http://10.0.0.5:2380")
      (by decide) (by decide),
   by
     have h := (c8_etcd_endpoints_normalization
        (fun k => if k = gs "GSR_ETCD_ENDPOINTS" then gs "a,b:80" else [])).1
     rw [h]
     decide⟩

/-! ## Claim C9: defaults under unset or malformed environment -/

/-- Claim C9: an unset (empty) or malformed environment value resolves
each option to its documented default, and with no variables set at all
the whole configuration equals the documented defaults: endpoints
`http://127.0.0.1:2379`, key prefix `gsr/`, connect timeout 300 s, dial
and request timeouts 1 s, TLS off with cert `/etc/gsr/server.pem` and key
`/etc/gsr/server.key`, log level 0, lease TTL 60 s. -/
theorem c9_config_defaults :
    (∀ env : Env, (∀ k, env k = []) → configFromEnv env = defaultConfig)
      ∧ (∀ env : Env, goAtoi (env (gs "GSR_ETCD_CONNECT_TIMEOUT_SECONDS")) = none →
          (configFromEnv env).etcdConnectTimeoutSeconds = 300)
      ∧ (∀ env : Env, goAtoi (env (gs "GSR_ETCD_REQUEST_TIMEOUT_SECONDS")) = none →
          (configFromEnv env).etcdRequestTimeoutSeconds = 1)
      ∧ (∀ env : Env, goAtoi (env (gs "GSR_ETCD_DIAL_TIMEOUT_SECONDS")) = none →
          (configFromEnv env).etcdDialTimeoutSeconds = 1)
      ∧ (∀ env : Env, goAtoi (env (gs "GSR_LOG_LEVEL")) = none →
          (configFromEnv env).logLevel = 0)
      ∧ (∀ env : Env, goAtoi (env (gs "GSR_LEASE_SECONDS")) = none →
          (configFromEnv env).leaseSeconds = 60)
      ∧ (∀ env : Env, goParseBool (env (gs "GSR_USE_TLS")) = none →
          (configFromEnv env).useTLS = false)
      ∧ (∀ env : Env, env (gs "GSR_ETCD_ENDPOINTS") = [] →
          (configFromEnv env).etcdEndpoints = [gs "http://127.0.0.1:2379"])
      ∧ (∀ env : Env, env (gs "GSR_KEY_PREFIX") = [] →
          (configFromEnv env).etcdKeyPfx = gs "gsr/")
      ∧ (∀ env : Env, env (gs "GSR_TLS_CERT_PATH") = [] →
          (configFromEnv env).tlsCertPath = gs "/etc/gsr/server.pem")
      ∧ (∀ env : Env, env (gs "GSR_TLS_KEY_PATH") = [] →
          (configFromEnv env).tlsKeyPath = gs "/etc/gsr/server.key") := by
  have hintNone : ∀ (env : Env) (key : GoStr) (d : Int),
      goAtoi (env key) = none → envOrDefaultInt env key d = d := by
    intro env key d h
    unfold envOrDefaultInt
    split
    · rfl
    · rw [h]
  have hboolNone : ∀ (env : Env) (key : GoStr) (d : Bool),
      goParseBool (env key) = none → envOrDefaultBool env key d = d := by
    intro env key d h
    unfold envOrDefaultBool
    split
    · rfl
    · rw [h]
  refine ⟨?_, ?_, ?_, ?_, ?_, ?_, ?_, ?_, ?_, ?_, ?_⟩
  · intro env h
    simp only [configFromEnv, defaultConfig, etcdEndpoints, envOrDefaultStr,
      envOrDefaultInt, envOrDefaultBool, h, if_pos rfl]
    decide
  · intro env h
    exact hintNone env _ 300 h
  · intro env h
    exact hintNone env _ 1 h
  · intro env h
    exact hintNone env _ 1 h
  · intro env h
    exact hintNone env _ 0 h
  · intro env h
    exact hintNone env _ 60 h
  · intro env h
    exact hboolNone env _ false h
  · intro env h
    simp [configFromEnv, etcdEndpoints, envOrDefaultStr, h]
    decide
  · intro env h
    simp [configFromEnv, envOrDefaultStr, h]
    decide
  · intro env h
    simp [configFromEnv, envOrDefaultStr, h]
  · intro env h
    simp [configFromEnv, envOrDefaultStr, h]

/-- Witness for C9: the empty environment resolves to the documented
defaults, and a malformed numeric (`abc`) and boolean (`yes`) fall back
to theirs. -/
theorem c9_config_defaults_witness :
    configFromEnv (fun _ => []) = defaultConfig
      ∧ (configFromEnv (fun _ => gs "abc")).etcdConnectTimeoutSeconds = 300
      ∧ (configFromEnv (fun _ => gs "yes")).useTLS = false :=
  ⟨c9_config_defaults.1 (fun _ => []) (fun _ => rfl),
   c9_config_defaults.2.1 (fun _ => gs "abc") (by decide),
   (c9_config_defaults.2.2.2.2.2.2.1 (fun _ => gs "yes") (by decide))⟩

end Gsr
